import Mathlib

/-!
Verification development for the agentic-memory MCP repository.

The protocol adapter (`agentic_memory_mcp/tools.py`), the LLM controller
(`agentic_memory/llm_controller.py`) and the auxiliary scripts are embedded
from their sources.  The core `AgenticMemorySystem` (note store, cache,
retrieval orchestrator) ships outside the checked tree, so those components
are modelled from the specification document; each such definition carries a
doc comment starting with "Modelled from the spec:".
-/

namespace AMem

/-- A JSON value, the shape of the dictionaries Python's `json.dumps`
serializes in `llm_controller.py` and `tools.py`. -/
inductive JVal where
  | jstr (s : String)
  | jint (n : Int)
  | jbool (b : Bool)
  | jnull
  | jarr (elems : List JVal)
  | jobj (fields : List (String × JVal))

/-- The opening-brace character of a JSON object. -/
def lbrace : Char := Char.ofNat 123

/-- The closing-brace character of a JSON object. -/
def rbrace : Char := Char.ofNat 125

/-- JSON string escaping of one character: quote and backslash get a
backslash prefix, all other characters pass through. -/
def escapeChar (c : Char) : List Char :=
  if c = '"' ∨ c = '\\' then ['\\', c] else [c]

/-- JSON string escaping of a character sequence. -/
def escapeChars (s : List Char) : List Char :=
  (s.map escapeChar).flatten

/-- A JSON string literal: escaped content between double quotes. -/
def quoteChars (s : List Char) : List Char :=
  '"' :: (escapeChars s ++ ['"'])

mutual

/-- Serialization of a JSON value to text, after Python `json.dumps` with its
default separators. -/
def jsonDumpVal : JVal → List Char
  | .jstr s => quoteChars s.data
  | .jint n => (toString n).data
  | .jbool b => if b then "true".data else "false".data
  | .jnull => "null".data
  | .jarr l => '[' :: (jsonDumpArr l ++ [']'])
  | .jobj l => lbrace :: (jsonDumpFields l ++ [rbrace])

/-- Serialization of the element list of a JSON array. -/
def jsonDumpArr : List JVal → List Char
  | [] => []
  | [v] => jsonDumpVal v
  | v :: rest => jsonDumpVal v ++ ',' :: ' ' :: jsonDumpArr rest

/-- Serialization of the field list of a JSON object. -/
def jsonDumpFields : List (String × JVal) → List Char
  | [] => []
  | [kv] => quoteChars kv.1.data ++ ':' :: ' ' :: jsonDumpVal kv.2
  | kv :: rest => quoteChars kv.1.data ++ ':' :: ' ' :: jsonDumpVal kv.2 ++
      ',' :: ' ' :: jsonDumpFields rest

end

/-- Serialization of a JSON object given by its field list. -/
def jsonDumpsObj (fields : List (String × JVal)) : String :=
  String.mk (jsonDumpVal (.jobj fields))

/-! ## Embedding of `agentic_memory/llm_controller.py`

The network call of each backend is abstracted as an `Option String`
argument: `some content` is a successful completion, `none` is the backend
call raising an exception. -/

/-- The `schema` part of a `response_format` argument: the optional
`properties` map from property name to that property's `type` string
(`llm_controller.py`, the `json_schema.schema` dictionary). -/
structure JsonSchemaBody where
  properties : Option (List (String × String))
deriving DecidableEq

/-- A `response_format` argument: an optional `json_schema` entry
(`llm_controller.py` checks `"json_schema" in response_format`). -/
structure ResponseFormat where
  json_schema : Option JsonSchemaBody
deriving DecidableEq

/-- Embedding of `OllamaController._generate_empty_value` (`llm_controller.py` lines
45-56): array → `[]`, string → `""`, object → `{}` (as a JSON object),
number → `0`, boolean → `false`, anything else → `None`.  Note there is no
`integer` case in this backend. -/
def generateEmptyValueOllama (schemaType : String) : JVal :=
  if schemaType = "array" then .jarr []
  else if schemaType = "string" then .jstr ""
  else if schemaType = "object" then .jobj []
  else if schemaType = "number" then .jint 0
  else if schemaType = "boolean" then .jbool false
  else .jnull

/-- Embedding of `SGLangController._generate_empty_value` (`llm_controller.py` lines
94-105): same as Ollama's but `number` and `integer` both map to `0`. -/
def generateEmptyValueSGLang (schemaType : String) : JVal :=
  if schemaType = "array" then .jarr []
  else if schemaType = "string" then .jstr ""
  else if schemaType = "object" then .jobj []
  else if schemaType = "number" ∨ schemaType = "integer" then .jint 0
  else if schemaType = "boolean" then .jbool false
  else .jnull

/-- Shared shape of `_generate_empty_response` (`llm_controller.py` lines 58-70
and 107-119): no `json_schema` key gives `{}`; otherwise one empty value per
entry of the schema's `properties`. -/
def generateEmptyResponseWith (emptyVal : String → JVal)
    (rf : ResponseFormat) : List (String × JVal) :=
  match rf.json_schema with
  | none => []
  | some body =>
    match body.properties with
    | none => []
    | some props => props.map (fun p => (p.1, emptyVal p.2))

/-- Embedding of `OllamaController._generate_empty_response` (`llm_controller.py` lines
58-70). -/
def ollamaGenerateEmptyResponse (rf : ResponseFormat) : List (String × JVal) :=
  generateEmptyResponseWith generateEmptyValueOllama rf

/-- Embedding of `SGLangController._generate_empty_response` (`llm_controller.py` lines
107-119). -/
def sglangGenerateEmptyResponse (rf : ResponseFormat) : List (String × JVal) :=
  generateEmptyResponseWith generateEmptyValueSGLang rf

/-- Embedding of `OllamaController.get_completion` (`llm_controller.py` lines 72-85): on
any exception from the completion call it returns
`json.dumps(self._generate_empty_response(response_format))`. -/
def ollamaGetCompletion (llmCall : Option String) (rf : ResponseFormat) :
    String :=
  match llmCall with
  | some content => content
  | none => jsonDumpsObj (ollamaGenerateEmptyResponse rf)

/-- Embedding of `SGLangController.get_completion` (`llm_controller.py` lines 121-153):
on any exception (including a non-200 status) it returns
`json.dumps(self._generate_empty_response(response_format))`. -/
def sglangGetCompletion (llmCall : Option String) (rf : ResponseFormat) :
    String :=
  match llmCall with
  | some content => content
  | none => jsonDumpsObj (sglangGenerateEmptyResponse rf)

/-- Embedding of `OpenAIController.get_completion` (`llm_controller.py` lines 27-38):
there is no exception handler, so a failing backend call propagates out of
`get_completion` — `none` stays `none`. -/
def openaiGetCompletion (llmCall : Option String) : Option String :=
  llmCall

/-! ## Model of the Note Lifecycle core

The `AgenticMemorySystem` sources (`agentic_memory/memory_system.py`,
`agentic_memory/retrievers.py`, the note cache) are not in the checked
tree — only their callers and tests are — so the core operations are
modelled from the specification, §3-§4. -/

/-- Modelled from the spec: §3, one `evolution_history` event records a
timestamp, an event kind and the neighbor ID involved (the source file
defining the event records, `memory_system.py`, is absent). -/
structure EvoEvent where
  timestamp : String
  kind : String
  neighbor : String
deriving DecidableEq

/-- Modelled from the spec: §3 MemoryNote, the canonical entity
(`memory_system.py` is absent; field list as in the spec's table and as
rendered by `tools.py` lines 193-205). -/
structure MemoryNote where
  id : String
  content : String
  keywords : List String
  tags : List String
  context : String
  category : String
  timestamp : String
  last_accessed : String
  retrieval_count : Nat
  links : List String
  evolution_history : List EvoEvent
deriving DecidableEq

/-- Modelled from the spec: the authoritative collection of note records
(VectorIndex contents viewed through the Note Store). -/
structure MemState where
  notes : List MemoryNote
deriving DecidableEq

/-- Lookup of the record with a given ID. -/
def findNote (s : MemState) (id : String) : Option MemoryNote :=
  s.notes.find? (fun m => m.id == id)

/-- The read-path side effect of the spec §4.1: bump `retrieval_count` and
set `last_accessed`. -/
def touch (now : String) (m : MemoryNote) : MemoryNote :=
  { m with retrieval_count := m.retrieval_count + 1, last_accessed := now }

/-- Apply `f` to exactly the records whose ID is `id`. -/
def updateWhere (id : String) (f : MemoryNote → MemoryNote)
    (l : List MemoryNote) : List MemoryNote :=
  l.map (fun m => if m.id = id then f m else m)

/-- Modelled from the spec: §4.1 `read(id)` (`memory_system.read` is
absent).  Unknown IDs give `none`; a found note is returned with
`last_accessed`/`retrieval_count` updated and written through. -/
def memRead (now : String) (s : MemState) (id : String) :
    Option MemoryNote × MemState :=
  match findNote s id with
  | none => (none, s)
  | some n => (some (touch now n), ⟨updateWhere id (touch now) s.notes⟩)

/-- The update-tool field set: `content`/`keywords`/`tags`/`context`
(`tools.py` lines 24-30; spec §4.1 update). -/
structure UpdateFields where
  content : Option String := none
  keywords : Option (List String) := none
  tags : Option (List String) := none
  context : Option String := none
deriving DecidableEq

/-- Merge the supplied fields into an existing record, leaving every
omitted field — in particular `links`, `evolution_history`,
`retrieval_count` and `last_accessed` — untouched (spec §4.1). -/
def applyFields (f : UpdateFields) (m : MemoryNote) : MemoryNote :=
  { m with
    content := f.content.getD m.content
    keywords := f.keywords.getD m.keywords
    tags := f.tags.getD m.tags
    context := f.context.getD m.context }

/-- Modelled from the spec: §4.1 `update(id, fields)` (`memory_system.update`
is absent).  Returns `false` on an unknown ID, otherwise merges and writes
through. -/
def memUpdate (s : MemState) (id : String) (f : UpdateFields) :
    Bool × MemState :=
  match findNote s id with
  | none => (false, s)
  | some _ => (true, ⟨updateWhere id (applyFields f) s.notes⟩)

/-- Remove a dangling link towards `id` from a neighbor record and append
the evolution-history event recording the pruning (spec §4.1 delete and
§4.3 step 5). -/
def pruneLink (now id : String) (m : MemoryNote) : MemoryNote :=
  if id ∈ m.links then
    { m with
      links := m.links.filter (fun l => l != id)
      evolution_history := m.evolution_history ++ [⟨now, "pruned", id⟩] }
  else m

/-- Modelled from the spec: §4.1 `delete(id)` (`memory_system.delete` is
absent).  Returns `false` on an unknown ID; otherwise removes the record
and prunes `id` from every remaining record's `links`, appending a
`pruned` event to each affected neighbor. -/
def memDelete (now : String) (s : MemState) (id : String) :
    Bool × MemState :=
  match findNote s id with
  | none => (false, s)
  | some _ =>
    (true, ⟨(s.notes.filter (fun m => m.id != id)).map (pruneLink now id)⟩)

/-- MetadataOracle output for one note: `{keywords, tags, context}`
(spec §6). -/
structure OracleMeta where
  keywords : List String
  tags : List String
  context : String
deriving DecidableEq

/-- The optional fields of `create` (spec §4.1). -/
structure CreateOpts where
  keywords : Option (List String) := none
  tags : Option (List String) := none
  context : Option String := none
  category : Option String := none
  timestamp : Option String := none
deriving DecidableEq

/-- Modelled from the spec: §4.1 `create` (`memory_system.add_note` is
absent).  `oracle = none` is an unavailable MetadataOracle: the omitted
metadata fields then fall back to empty-but-well-typed defaults rather
than failing the operation.  Empty content is a `ValidationError`.  The
evolution trigger is not modelled here: per §4.3 it mutates only `links`,
`evolution_history` and oracle-suggested `tags`/`context` of neighbors,
never `retrieval_count`/`last_accessed`. -/
def memCreate (oracle : Option OracleMeta) (newId now : String)
    (content : String) (opts : CreateOpts) (s : MemState) :
    Except String (String × MemState) :=
  if content = "" then .error "ValidationError: empty content"
  else
    let meta := oracle.getD ⟨[], [], ""⟩
    let note : MemoryNote :=
      { id := newId
        content := content
        keywords := opts.keywords.getD meta.keywords
        tags := opts.tags.getD meta.tags
        context := opts.context.getD meta.context
        category := opts.category.getD ""
        timestamp := opts.timestamp.getD now
        last_accessed := opts.timestamp.getD now
        retrieval_count := 0
        links := []
        evolution_history := [] }
    .ok (newId, ⟨s.notes ++ [note]⟩)

/-- One entry of a search result list: the note view plus the
score/neighbor annotations of spec §4.4. -/
structure SearchEntry where
  id : String
  content : String
  score : Option Rat
  is_neighbor : Bool
  parent_memory_id : Option String
deriving DecidableEq

/-- Modelled from the spec: §4.4 `search(query, k)` (`memory_system.search`
is absent).  `idx` is the VectorIndex `queryNearest`, returning
`(id, distance)` pairs; every resolvable hit is reported with
`score = 1 - distance`. -/
def memSearch (idx : String → Nat → List (String × Rat)) (s : MemState)
    (q : String) (k : Nat) : List SearchEntry :=
  (idx q k).filterMap (fun p =>
    (findNote s p.1).map (fun n =>
      { id := p.1, content := n.content, score := some (1 - p.2),
        is_neighbor := false, parent_memory_id := none }))

/-- One step of the link expansion of spec §4.4: a link target already seen
(as a primary or an earlier neighbor) or unresolvable is skipped, otherwise
it is appended flagged `is_neighbor := true` with its parent's ID. -/
def addNeighbor (s : MemState) (pid : String)
    (st : List SearchEntry × List String) (lnk : String) :
    List SearchEntry × List String :=
  if lnk ∈ st.2 then st
  else
    match findNote s lnk with
    | none => st
    | some n =>
      (st.1 ++ [{ id := lnk, content := n.content, score := none,
                  is_neighbor := true, parent_memory_id := some pid }],
       st.2 ++ [lnk])

/-- Follow one primary result's `links` one hop (spec §4.4). -/
def expandPrimary (s : MemState) (st : List SearchEntry × List String)
    (p : SearchEntry) : List SearchEntry × List String :=
  match findNote s p.id with
  | none => st
  | some n => n.links.foldl (addNeighbor s p.id) st

/-- Modelled from the spec: §4.4 `search_agentic(query, k)`
(`memory_system.search_agentic` is absent).  The primary set of `search`
comes first, then the deduplicated one-hop neighbors in parent order. -/
def memSearchAgentic (idx : String → Nat → List (String × Rat))
    (s : MemState) (q : String) (k : Nat) : List SearchEntry :=
  let primaries := memSearch idx s q k
  primaries ++ (primaries.foldl (expandPrimary s) ([], primaries.map (·.id))).1

/-! ## Model of the Note Cache (spec §4.2) -/

/-- Modelled from the spec: §4.2 Note Cache state (the cache source file is
absent; `test_refactored_system.py` lines 107-114 show its counters).
`entries` is most-recently-used first. -/
structure NoteCache where
  entries : List (String × MemoryNote)
  max_size : Nat
  hits : Nat
  misses : Nat
  evictions : Nat
deriving DecidableEq

/-- The empty cache with a given capacity. -/
def cacheInit (cap : Nat) : NoteCache := ⟨[], cap, 0, 0, 0⟩

/-- Modelled from the spec: §4.2 `get(id)` — a hit moves the entry to the
most-recently-used position and bumps `hits`; a miss bumps `misses`. -/
def cacheGet (c : NoteCache) (id : String) : Option MemoryNote × NoteCache :=
  match c.entries.find? (fun e => e.1 == id) with
  | none => (none, { c with misses := c.misses + 1 })
  | some e =>
    (some e.2,
     { c with hits := c.hits + 1,
              entries := e :: c.entries.filter (fun e2 => e2.1 != id) })

/-- Modelled from the spec: §4.2 `put(id, note)` — insert or replace at the
most-recently-used position; over capacity, evict the least-recently-used
entry and bump `evictions`. -/
def cachePut (c : NoteCache) (id : String) (n : MemoryNote) : NoteCache :=
  let entries := (id, n) :: c.entries.filter (fun e => e.1 != id)
  if c.max_size < entries.length then
    { c with entries := entries.dropLast, evictions := c.evictions + 1 }
  else
    { c with entries := entries }

/-- Modelled from the spec: §4.2 `invalidate(id)` — remove if present,
idempotent. -/
def cacheInvalidate (c : NoteCache) (id : String) : NoteCache :=
  { c with entries := c.entries.filter (fun e => e.1 != id) }

/-- The record returned by §4.2 `stats()`: exactly the fields `size`,
`max_size`, `hits`, `misses`, `evictions`, `hit_rate`. -/
structure CacheStats where
  size : Nat
  max_size : Nat
  hits : Nat
  misses : Nat
  evictions : Nat
  hit_rate : Rat
deriving DecidableEq

/-- Modelled from the spec: §4.2 `stats()`, with
`hit_rate = hits / (hits + misses)`, zero when no lookups occurred. -/
def cacheStats (c : NoteCache) : CacheStats :=
  { size := c.entries.length
    max_size := c.max_size
    hits := c.hits
    misses := c.misses
    evictions := c.evictions
    hit_rate :=
      if c.hits + c.misses = 0 then 0
      else (c.hits : Rat) / ((c.hits : Rat) + (c.misses : Rat)) }

/-- One cache operation of the §4.2 contract. -/
inductive CacheOp where
  | get (id : String)
  | put (id : String) (n : MemoryNote)
  | invalidate (id : String)

/-- Apply one cache operation to the cache state. -/
def cacheStep (c : NoteCache) : CacheOp → NoteCache
  | .get id => (cacheGet c id).2
  | .put id n => cachePut c id n
  | .invalidate id => cacheInvalidate c id

/-- The cache state after a lifetime of operations from the empty cache. -/
def cacheRun (cap : Nat) (ops : List CacheOp) : NoteCache :=
  ops.foldl cacheStep (cacheInit cap)

/-- The number of lookups (`get` operations) in a cache lifetime. -/
def countGets : List CacheOp → Nat
  | [] => 0
  | .get _ :: rest => countGets rest + 1
  | .put _ _ :: rest => countGets rest
  | .invalidate _ :: rest => countGets rest

/-! ## Embedding of `agentic_memory_mcp/tools.py` -/

/-- A value in a tool-call `arguments` dictionary: the tool schemas use
strings, lists of strings and integers. -/
inductive AVal where
  | s (v : String)
  | l (v : List String)
  | i (v : Int)
deriving DecidableEq

/-- An `arguments` dictionary (or a keyword-argument dictionary built from
one). -/
abbrev Args := List (String × AVal)

/-- First-occurrence key lookup in an arguments dictionary. -/
def lookupArg (args : Args) (key : String) : Option AVal :=
  (args.find? (fun kv => kv.1 == key)).map (·.2)

/-- Pydantic parse of a required string field: missing or wrongly typed is
a validation failure. -/
def reqStrArg (args : Args) (key : String) : Option String :=
  match lookupArg args key with
  | some (.s v) => some v
  | _ => none

/-- Pydantic parse of an optional string field (default `None`). -/
def optStrArg (args : Args) (key : String) : Option (Option String) :=
  match lookupArg args key with
  | none => some none
  | some (.s v) => some (some v)
  | some _ => none

/-- Pydantic parse of an optional list-of-strings field (default `None`). -/
def optListArg (args : Args) (key : String) : Option (Option (List String)) :=
  match lookupArg args key with
  | none => some none
  | some (.l v) => some (some v)
  | some _ => none

/-- Embedding of `AddNoteArgs` (`tools.py` lines 10-16): `content` required, then the
optional `keywords`/`tags`/`context`/`timestamp`.  There is no `category`
field in this schema. -/
structure AddNoteArgs where
  content : String
  keywords : Option (List String)
  tags : Option (List String)
  context : Option String
  timestamp : Option String
deriving DecidableEq

/-- Validation of an arguments dictionary against `AddNoteArgs` (extra keys
are ignored, as by pydantic's default config). -/
def parseAddArgs (args : Args) : Option AddNoteArgs := do
  let content ← reqStrArg args "content"
  let keywords ← optListArg args "keywords"
  let tags ← optListArg args "tags"
  let context ← optStrArg args "context"
  let timestamp ← optStrArg args "timestamp"
  pure ⟨content, keywords, tags, context, timestamp⟩

/-- Embedding of `ReadNoteArgs` and `DeleteNoteArgs` (`tools.py` lines 19-21 and 33-35). -/
structure IdArgs where
  memory_id : String
deriving DecidableEq

/-- Validation of an arguments dictionary against `ReadNoteArgs` or
`DeleteNoteArgs`. -/
def parseIdArgs (args : Args) : Option IdArgs := do
  let memory_id ← reqStrArg args "memory_id"
  pure ⟨memory_id⟩

/-- Embedding of `UpdateNoteArgs` (`tools.py` lines 24-30). -/
structure UpdateNoteArgs where
  memory_id : String
  content : Option String
  keywords : Option (List String)
  tags : Option (List String)
  context : Option String
deriving DecidableEq

/-- Validation of an arguments dictionary against `UpdateNoteArgs`. -/
def parseUpdateArgs (args : Args) : Option UpdateNoteArgs := do
  let memory_id ← reqStrArg args "memory_id"
  let content ← optStrArg args "content"
  let keywords ← optListArg args "keywords"
  let tags ← optListArg args "tags"
  let context ← optStrArg args "context"
  pure ⟨memory_id, content, keywords, tags, context⟩

/-- Embedding of `SearchArgs` (`tools.py` lines 38-41): required `query`, `k` defaulting
to 5. -/
structure SearchArgs where
  query : String
  k : Int
deriving DecidableEq

/-- Validation of an arguments dictionary against `SearchArgs`. -/
def parseSearchArgs (args : Args) : Option SearchArgs := do
  let query ← reqStrArg args "query"
  let k ←
    match lookupArg args "k" with
    | none => some (5 : Int)
    | some (.i v) => some v
    | some _ => none
  pure ⟨query, k⟩

/-- The keyword-argument dictionary the add branch builds for
`memory_system.add_note` (`tools.py` lines 162-170): each optional field
only when supplied, and `timestamp` passed under the name `time`. -/
def addKwargs (a : AddNoteArgs) : Args :=
  (match a.keywords with | some v => [("keywords", .l v)] | none => []) ++
  (match a.tags with | some v => [("tags", .l v)] | none => []) ++
  (match a.context with | some v => [("context", .s v)] | none => []) ++
  (match a.timestamp with | some v => [("time", .s v)] | none => [])

/-- The `update_fields` dictionary the update branch builds for
`memory_system.update` (`tools.py` lines 211-219). -/
def updateKwargs (u : UpdateNoteArgs) : Args :=
  (match u.content with | some v => [("content", .s v)] | none => []) ++
  (match u.keywords with | some v => [("keywords", .l v)] | none => []) ++
  (match u.tags with | some v => [("tags", .l v)] | none => []) ++
  (match u.context with | some v => [("context", .s v)] | none => [])

/-- The `AgenticMemorySystem` as the tool layer sees it: each operation may
raise (the `Except.error` case carries the exception text).  The system
itself lives outside the checked tree. -/
structure MemSystem where
  add_note : String → Args → Except String String
  read : String → Except String (Option MemoryNote)
  update : String → Args → Except String Bool
  delete : String → Except String Bool
  search : String → Int → Except String (List JVal)
  search_agentic : String → Int → Except String (List JVal)

/-- Rendering of one evolution-history event into the note dictionary. -/
def renderEvent (e : EvoEvent) : JVal :=
  .jobj [("timestamp", .jstr e.timestamp), ("kind", .jstr e.kind),
         ("neighbor", .jstr e.neighbor)]

/-- The note dictionary of the read branch (`tools.py` lines 191-206). -/
def renderNote (n : MemoryNote) : JVal :=
  .jobj [("id", .jstr n.id), ("content", .jstr n.content),
         ("keywords", .jarr (n.keywords.map .jstr)),
         ("tags", .jarr (n.tags.map .jstr)),
         ("context", .jstr n.context),
         ("timestamp", .jstr n.timestamp),
         ("last_accessed", .jstr n.last_accessed),
         ("links", .jarr (n.links.map .jstr)),
         ("retrieval_count", .jint (n.retrieval_count : Int)),
         ("category", .jstr n.category),
         ("evolution_history", .jarr (n.evolution_history.map renderEvent))]

/-- An error result dictionary. -/
def errorResponse (msg : String) : List (String × JVal) :=
  [("status", .jstr "error"), ("message", .jstr msg)]

/-- The body of `call_tool` inside its `try` block (`tools.py` lines
159-266): dispatch on the tool name; `Except.error` is an exception
escaping to the outer handler (pydantic validation errors included). -/
def callToolInner (ms : MemSystem) (name : String) (args : Args) :
    Except String (List (String × JVal)) :=
  if name = "add_memory_note" then
    match parseAddArgs args with
    | none => .error "validation error"
    | some a =>
      match ms.add_note a.content (addKwargs a) with
      | .error e => .error e
      | .ok mid =>
        .ok [("status", .jstr "success"), ("memory_id", .jstr mid),
             ("message", .jstr "Memory note added successfully")]
  else if name = "read_memory_note" then
    match parseIdArgs args with
    | none => .error "validation error"
    | some r =>
      match ms.read r.memory_id with
      | .error e => .error e
      | .ok none => .ok (errorResponse ("Memory not found: " ++ r.memory_id))
      | .ok (some n) =>
        .ok [("status", .jstr "success"), ("note", renderNote n)]
  else if name = "update_memory_note" then
    match parseUpdateArgs args with
    | none => .error "validation error"
    | some u =>
      match ms.update u.memory_id (updateKwargs u) with
      | .error e => .error e
      | .ok success =>
        .ok (if success then
               [("status", .jstr "success"),
                ("message", .jstr "Memory updated successfully")]
             else errorResponse ("Memory not found: " ++ u.memory_id))
  else if name = "delete_memory_note" then
    match parseIdArgs args with
    | none => .error "validation error"
    | some d =>
      match ms.delete d.memory_id with
      | .error e => .error e
      | .ok success =>
        .ok (if success then
               [("status", .jstr "success"),
                ("message", .jstr "Memory deleted successfully")]
             else errorResponse ("Memory not found: " ++ d.memory_id))
  else if name = "search_memories" then
    match parseSearchArgs args with
    | none => .error "validation error"
    | some sa =>
      match ms.search sa.query sa.k with
      | .error e => .error e
      | .ok results =>
        .ok [("status", .jstr "success"),
             ("count", .jint (results.length : Int)),
             ("results", .jarr results)]
  else if name = "search_memories_agentic" then
    match parseSearchArgs args with
    | none => .error "validation error"
    | some sa =>
      match ms.search_agentic sa.query sa.k with
      | .error e => .error e
      | .ok results =>
        .ok [("status", .jstr "success"),
             ("count", .jint (results.length : Int)),
             ("results", .jarr results)]
  else
    .ok (errorResponse ("Unknown tool: " ++ name))

/-- Embedding of `call_tool` (`tools.py` lines 148-273): the dispatch wrapped in the
catch-all exception handler that turns any raise into an error result. -/
def callTool (ms : MemSystem) (name : String) (args : Args) :
    List (String × JVal) :=
  match callToolInner ms name args with
  | .ok r => r
  | .error e => errorResponse ("Tool execution error: " ++ e)

/-- The `status` field of a result dictionary. -/
def statusOf (r : List (String × JVal)) : Option JVal :=
  (r.find? (fun kv => kv.1 == "status")).map (·.2)

/-- A probe memory system whose `add_note` reports whether a `category`
keyword argument reached it; the other operations answer trivially. -/
def msProbe : MemSystem :=
  { add_note := fun _ kw =>
      .ok (if (lookupArg kw "category").isSome then "category-forwarded"
           else "category-dropped")
    read := fun _ => .ok none
    update := fun _ _ => .ok false
    delete := fun _ => .ok false
    search := fun _ _ => .ok []
    search_agentic := fun _ _ => .ok [] }

/-! ## Model of the VectorIndex metadata blob (spec §6)

`agentic_memory/retrievers.py` (the serializer) is absent; the shape is
modelled from the spec together with `inspect_memories.py` lines 31-47 and
`debug_retrieval.py` lines 165-183: list-valued fields travel as JSON array
strings, `retrieval_count` as a decimal string. -/

/-- Parser for the body of a JSON string literal, after the opening quote:
returns the unescaped content and the input after the closing quote. -/
def parseStrBody : List Char → Option (List Char × List Char)
  | [] => none
  | c :: rest =>
    if c = '\\' then
      match rest with
      | [] => none
      | d :: rest2 => (parseStrBody rest2).map (fun p => (d :: p.1, p.2))
    else if c = '"' then some ([], rest)
    else (parseStrBody rest).map (fun p => (c :: p.1, p.2))

/-- Encoding of the items of a nonempty JSON array of strings, including
the closing bracket; the empty list contributes just the bracket. -/
def encodeItemsClosed : List String → List Char
  | [] => [']']
  | [s] => quoteChars s.data ++ [']']
  | s :: rest => quoteChars s.data ++ ',' :: encodeItemsClosed rest

/-- Modelled from the spec: the unambiguous textual encoding of a
list-valued field — a JSON array of strings. -/
def encodeStrList (l : List String) : String :=
  String.mk ('[' :: encodeItemsClosed l)

/-- Fuel-indexed parser for the items of a JSON array of strings after the
opening bracket, consuming the closing bracket. -/
def parseItemsAux : Nat → List Char → Option (List String × List Char)
  | 0, _ => none
  | _ + 1, [] => none
  | fuel + 1, c :: rest =>
    if c = '"' then
      match parseStrBody rest with
      | none => none
      | some (s, r) =>
        match r with
        | ',' :: r2 =>
          (parseItemsAux fuel r2).map (fun p => (String.mk s :: p.1, p.2))
        | ']' :: r2 => some ([String.mk s], r2)
        | _ => none
    else none

/-- Parser for a whole JSON array of strings. -/
def parseStrList (str : String) : Option (List String) :=
  match str.data with
  | '[' :: rest =>
    if rest = [']'] then some []
    else
      match parseItemsAux rest.length rest with
      | some (l, []) => some l
      | _ => none
  | _ => none

/-- A decimal digit as a character. -/
def digitChar (d : Nat) : Char :=
  if d = 0 then '0' else if d = 1 then '1' else if d = 2 then '2'
  else if d = 3 then '3' else if d = 4 then '4' else if d = 5 then '5'
  else if d = 6 then '6' else if d = 7 then '7' else if d = 8 then '8'
  else '9'

/-- A character as a decimal digit. -/
def charDigit (c : Char) : Option Nat :=
  if c = '0' then some 0 else if c = '1' then some 1
  else if c = '2' then some 2 else if c = '3' then some 3
  else if c = '4' then some 4 else if c = '5' then some 5
  else if c = '6' then some 6 else if c = '7' then some 7
  else if c = '8' then some 8 else if c = '9' then some 9 else none

/-- The decimal rendering of a natural number (Python `str`). -/
def natToDecimal (n : Nat) : String :=
  if n = 0 then "0" else String.mk (((Nat.digits 10 n).map digitChar).reverse)

/-- Parse of a decimal string back to a natural number. -/
def decimalToNat (str : String) : Option Nat :=
  if str.data = [] then none
  else (str.data.mapM charDigit).map (fun ds => Nat.ofDigits 10 ds.reverse)

/-- The three textual cells of one evolution-history event. -/
def eventToCells (e : EvoEvent) : List String :=
  [e.timestamp, e.kind, e.neighbor]

/-- Modelled from the spec: `evolution_history` serialized as the JSON
array of its events' cells, three per event. -/
def encodeHistory (h : List EvoEvent) : String :=
  encodeStrList ((h.map eventToCells).flatten)

/-- Regroup the flat cell list into events, three cells each. -/
def cellsToEvents : List String → Option (List EvoEvent)
  | [] => some []
  | a :: b :: c :: rest => (cellsToEvents rest).map (fun es => ⟨a, b, c⟩ :: es)
  | _ => none

/-- Decoder for a serialized `evolution_history`. -/
def decodeHistory (str : String) : Option (List EvoEvent) :=
  (parseStrList str).bind cellsToEvents

/-- Modelled from the spec: §6 `metadataBlob` — every MemoryNote field as a
textual metadata value (list fields as JSON array strings,
`retrieval_count` as a decimal string). -/
structure MetadataBlob where
  id : String
  content : String
  keywords : String
  tags : String
  context : String
  category : String
  timestamp : String
  last_accessed : String
  retrieval_count : String
  links : String
  evolution_history : String
deriving DecidableEq

/-- Serialization of a MemoryNote into its VectorIndex metadata blob. -/
def serializeNote (n : MemoryNote) : MetadataBlob :=
  { id := n.id
    content := n.content
    keywords := encodeStrList n.keywords
    tags := encodeStrList n.tags
    context := n.context
    category := n.category
    timestamp := n.timestamp
    last_accessed := n.last_accessed
    retrieval_count := natToDecimal n.retrieval_count
    links := encodeStrList n.links
    evolution_history := encodeHistory n.evolution_history }

/-- The invariant of the agentic-search link expansion: the seen list is
exactly the primary IDs followed by the accumulated neighbor IDs, it is
duplicate-free, and every accumulated entry is a neighbor whose parent is a
primary ID. -/
def expandInv (P : List String) (st : List SearchEntry × List String) :
    Prop :=
  st.2 = P ++ st.1.map (fun r => r.id)
  ∧ st.2.Nodup
  ∧ ∀ r ∈ st.1, r.is_neighbor = true ∧
      ∃ i ∈ P, r.parent_memory_id = some i

/-- A concrete note record for witness scenarios. -/
def wNote (i : String) (ls : List String) : MemoryNote :=
  { id := i, content := "content-" ++ i, keywords := ["k"], tags := ["t"]
    context := "ctx", category := "", timestamp := "202601010101"
    last_accessed := "202601010101", retrieval_count := 2, links := ls
    evolution_history := [] }

/-- A concrete four-note state for witness scenarios. -/
def wState : MemState :=
  ⟨[wNote "a" ["b", "c"], wNote "b" ["a"], wNote "c" [], wNote "d" ["a"]]⟩

/-- A concrete VectorIndex answer for witness scenarios. -/
def wIdx : String → Nat → List (String × Rat) :=
  fun _ _ => [("a", 1/10), ("d", 2/10)]

/-- Deserialization of a metadata blob back to a MemoryNote. -/
def deserializeNote (b : MetadataBlob) : Option MemoryNote := do
  let keywords ← parseStrList b.keywords
  let tags ← parseStrList b.tags
  let links ← parseStrList b.links
  let retrieval_count ← decimalToNat b.retrieval_count
  let evolution_history ← decodeHistory b.evolution_history
  pure { id := b.id, content := b.content, keywords, tags
         context := b.context, category := b.category
         timestamp := b.timestamp, last_accessed := b.last_accessed
         retrieval_count, links, evolution_history }

/-! ## Shared lemmas about the note store -/

theorem touch_id (now : String) (m : MemoryNote) : (touch now m).id = m.id :=
  rfl

theorem applyFields_id (f : UpdateFields) (m : MemoryNote) :
    (applyFields f m).id = m.id :=
  rfl

theorem pruneLink_id (now id : String) (m : MemoryNote) :
    (pruneLink now id m).id = m.id := by
  unfold pruneLink
  split <;> rfl

theorem find?_updateWhere (id : String) (f : MemoryNote → MemoryNote)
    (hf : ∀ m, (f m).id = m.id) (l : List MemoryNote) :
    (updateWhere id f l).find? (fun m => m.id == id) =
      (l.find? (fun m => m.id == id)).map f := by
  induction l with
  | nil => rfl
  | cons m t ih =>
    simp only [updateWhere, List.map_cons]
    by_cases h : m.id = id
    · rw [if_pos h, List.find?_cons_of_pos _ (by simp [hf, h]),
        List.find?_cons_of_pos _ (by simp [h])]
      simp
    · rw [if_neg h, List.find?_cons_of_neg _ (by simp [h]),
        List.find?_cons_of_neg _ (by simp [h])]
      simpa [updateWhere] using ih

theorem findNote_updateWhere (s : MemState) (id : String)
    (f : MemoryNote → MemoryNote) (hf : ∀ m, (f m).id = m.id) :
    findNote ⟨updateWhere id f s.notes⟩ id = (findNote s id).map f :=
  find?_updateWhere id f hf s.notes

/-- Claim C3: every public operation referencing an unknown note ID gives
an absent result — `read` returns `none`, `update` and `delete` return
`false` — and, the operations being total functions, a missing ID never
surfaces as a thrown exception at the public-operation boundary. -/
theorem unknown_id_yields_absent_results (s : MemState) (id now : String)
    (f : UpdateFields) (h : findNote s id = none) :
    (memRead now s id).1 = none ∧ (memUpdate s id f).1 = false ∧
      (memDelete now s id).1 = false := by
  refine ⟨?_, ?_, ?_⟩ <;> simp [memRead, memUpdate, memDelete, h]

/-- Witness for C3 at the empty store and the ID `"missing"`. -/
theorem unknown_id_yields_absent_results_witness :
    findNote ⟨[]⟩ "missing" = none ∧
      ((memRead "202601010101" ⟨[]⟩ "missing").1 = none ∧
       (memUpdate ⟨[]⟩ "missing" {}).1 = false ∧
       (memDelete "202601010101" ⟨[]⟩ "missing").1 = false) :=
  ⟨rfl, unknown_id_yields_absent_results ⟨[]⟩ "missing" "202601010101" {} rfl⟩

/-- Claim C6: updating `tags` of an existing note and reading it back gives
a note whose `tags` equal the supplied list; every field the caller did not
supply is unchanged apart from the read path's own `retrieval_count` bump
and `last_accessed` refresh — and no update or create operation mutates
`retrieval_count` or `last_accessed` of any stored note. -/
theorem update_tags_preserves_frame (s : MemState) (id now : String)
    (n : MemoryNote) (T : List String) (h : findNote s id = some n) :
    (memUpdate s id { tags := some T }).1 = true
    ∧ (memRead now (memUpdate s id { tags := some T }).2 id).1 =
        some { n with
            tags := T,
            retrieval_count := n.retrieval_count + 1,
            last_accessed := now }
    ∧ (∀ f : UpdateFields, ∀ m' ∈ (memUpdate s id f).2.notes,
        ∃ m ∈ s.notes, m'.retrieval_count = m.retrieval_count ∧
          m'.last_accessed = m.last_accessed)
    ∧ (∀ oracle newId ctime content opts mid s',
        memCreate oracle newId ctime content opts s = .ok (mid, s') →
        ∀ m ∈ s.notes, m ∈ s'.notes) := by
  have hfind :
      findNote (memUpdate s id { tags := some T }).2 id =
        some (applyFields { tags := some T } n) := by
    simp only [memUpdate, h]
    rw [findNote_updateWhere s id _ (applyFields_id _), h]
    rfl
  refine ⟨?_, ?_, ?_, ?_⟩
  · simp [memUpdate, h]
  · simp only [memRead, hfind]
    cases n
    simp [touch, applyFields]
  · intro f m' hm'
    simp only [memUpdate, h, updateWhere] at hm'
    obtain ⟨m, hm, rfl⟩ := List.mem_map.mp hm'
    refine ⟨m, hm, ?_, ?_⟩ <;> by_cases hid : m.id = id <;>
      simp [hid, applyFields]
  · intro oracle newId ctime content opts mid s' hc m hm
    unfold memCreate at hc
    split at hc
    · cases hc
    · simp only [Except.ok.injEq, Prod.mk.injEq] at hc
      obtain ⟨-, rfl⟩ := hc
      exact List.mem_append_left _ hm

/-- Witness for C6 at the four-note state and note `"a"`. -/
theorem update_tags_preserves_frame_witness :
    findNote wState "a" = some (wNote "a" ["b", "c"]) ∧
      ((memUpdate wState "a" { tags := some ["t1"] }).1 = true ∧
       (memRead "202601020304"
          (memUpdate wState "a" { tags := some ["t1"] }).2 "a").1 =
         some { wNote "a" ["b", "c"] with
             tags := ["t1"],
             retrieval_count := (wNote "a" ["b", "c"]).retrieval_count + 1,
             last_accessed := "202601020304" }) :=
  ⟨rfl,
   (update_tags_preserves_frame wState "a" "202601020304" _ ["t1"] rfl).1,
   (update_tags_preserves_frame wState "a" "202601020304" _ ["t1"] rfl).2.1⟩

/-- Claim C5: deleting a stored ID returns `true`, a subsequent read of it
returns not-found, no remaining note's `links` contains the ID, and every
neighbor that listed it gets the link entry removed with a `pruned`
evolution-history event appended. -/
theorem delete_prunes_dangling_links (s : MemState) (id now now2 : String)
    (n : MemoryNote) (h : findNote s id = some n) :
    (memDelete now s id).1 = true
    ∧ (memRead now2 (memDelete now s id).2 id).1 = none
    ∧ (∀ m ∈ (memDelete now s id).2.notes, id ∉ m.links)
    ∧ (∀ m ∈ s.notes, m.id ≠ id → id ∈ m.links →
        ∃ m' ∈ (memDelete now s id).2.notes, m'.id = m.id ∧
          m'.links = m.links.filter (fun l => l != id) ∧
          m'.evolution_history = m.evolution_history ++ [⟨now, "pruned", id⟩]) := by
  have hstate : (memDelete now s id).2 =
      ⟨(s.notes.filter (fun m => m.id != id)).map (pruneLink now id)⟩ := by
    simp [memDelete, h]
  have hnone : findNote (memDelete now s id).2 id = none := by
    rw [hstate]
    refine List.find?_eq_none.mpr ?_
    intro x hx
    obtain ⟨y, hy, rfl⟩ := List.mem_map.mp hx
    have hyid : y.id ≠ id := by
      have := (List.mem_filter.mp hy).2
      simpa using this
    simp [pruneLink_id, hyid]
  refine ⟨?_, ?_, ?_, ?_⟩
  · simp [memDelete, h]
  · simp [memRead, hnone]
  · intro m hm
    rw [hstate] at hm
    obtain ⟨y, hy, rfl⟩ := List.mem_map.mp hm
    by_cases hin : id ∈ y.links
    · simp [pruneLink, hin, List.mem_filter]
    · simp [pruneLink, hin]
  · intro m hm hne hin
    refine ⟨pruneLink now id m, ?_, pruneLink_id now id m, ?_, ?_⟩
    · rw [hstate]
      exact List.mem_map_of_mem _ (List.mem_filter.mpr ⟨hm, by simp [hne]⟩)
    · simp [pruneLink, hin]
    · simp [pruneLink, hin]

/-- Witness for C5 at the four-note state and note `"a"`. -/
theorem delete_prunes_dangling_links_witness :
    findNote wState "a" = some (wNote "a" ["b", "c"]) ∧
      ((memDelete "202601020304" wState "a").1 = true ∧
       (memRead "202601020305" (memDelete "202601020304" wState "a").2 "a").1 =
         none) :=
  ⟨rfl,
   (delete_prunes_dangling_links wState "a" "202601020304" "202601020305" _
     rfl).1,
   (delete_prunes_dangling_links wState "a" "202601020304" "202601020305" _
     rfl).2.1⟩

theorem addNeighbor_inv (s : MemState) (P : List String) (pid : String)
    (hpid : pid ∈ P) (st : List SearchEntry × List String)
    (hinv : expandInv P st) (lnk : String) :
    expandInv P (addNeighbor s pid st lnk) := by
  obtain ⟨hseen, hnd, hr⟩ := hinv
  unfold addNeighbor
  by_cases hmem : lnk ∈ st.2
  · rw [if_pos hmem]
    exact ⟨hseen, hnd, hr⟩
  · rw [if_neg hmem]
    cases hfind : findNote s lnk with
    | none => exact ⟨hseen, hnd, hr⟩
    | some n =>
      refine ⟨?_, ?_, ?_⟩
      · simp [hseen]
      · simp only [List.nodup_append, hnd, List.nodup_cons]
        simp [hmem, List.disjoint_left]
      · intro r hr'
        rcases List.mem_append.mp hr' with h1 | h2
        · exact hr r h1
        · simp only [List.mem_singleton] at h2
          subst h2
          exact ⟨rfl, pid, hpid, rfl⟩

theorem foldl_addNeighbor_inv (s : MemState) (P : List String) (pid : String)
    (hpid : pid ∈ P) (links : List String) :
    ∀ st, expandInv P st →
      expandInv P (links.foldl (addNeighbor s pid) st) := by
  induction links with
  | nil => intro st h; exact h
  | cons l t ih =>
    intro st h
    exact ih _ (addNeighbor_inv s P pid hpid st h l)

theorem expandPrimary_inv (s : MemState) (P : List String)
    (st : List SearchEntry × List String) (p : SearchEntry)
    (hp : p.id ∈ P) (hinv : expandInv P st) :
    expandInv P (expandPrimary s st p) := by
  unfold expandPrimary
  cases hfind : findNote s p.id with
  | none => exact hinv
  | some n => exact foldl_addNeighbor_inv s P p.id hp n.links st hinv

theorem foldl_expandPrimary_inv (s : MemState) (P : List String) :
    ∀ (ps : List SearchEntry) (st), (∀ p ∈ ps, p.id ∈ P) →
      expandInv P st → expandInv P (ps.foldl (expandPrimary s) st) := by
  intro ps
  induction ps with
  | nil => intro st _ h; exact h
  | cons p t ih =>
    intro st hP h
    exact ih _ (fun x hx => hP x (List.mem_cons_of_mem _ hx))
      (expandPrimary_inv s P st p (hP p (List.mem_cons_self _ _)) h)

theorem memSearch_ids_sublist (idx : String → Nat → List (String × Rat))
    (s : MemState) (q : String) (k : Nat) :
    ((memSearch idx s q k).map (fun r => r.id)).Sublist
      ((idx q k).map Prod.fst) := by
  unfold memSearch
  generalize idx q k = l
  induction l with
  | nil => simp
  | cons p t ih =>
    simp only [List.filterMap_cons, List.map_cons]
    cases hf : findNote s p.1 with
    | none =>
      simp only [Option.map_none']
      exact ih.cons _
    | some n =>
      simp only [Option.map_some', List.map_cons]
      exact ih.cons₂ _

/-- Claim C4: the agentic search result set is a superset of the plain
search result set by ID; every extra entry is flagged `is_neighbor = true`
with a `parent_memory_id` that is the ID of some primary result; and no
note ID is repeated in the returned sequence. -/
theorem search_agentic_superset (idx : String → Nat → List (String × Rat))
    (s : MemState) (q : String) (k : Nat)
    (hidx : ((idx q k).map Prod.fst).Nodup) :
    (∀ i ∈ (memSearch idx s q k).map (fun r => r.id),
        i ∈ (memSearchAgentic idx s q k).map (fun r => r.id))
    ∧ (∀ r ∈ memSearchAgentic idx s q k,
        r.id ∉ (memSearch idx s q k).map (fun r => r.id) →
          r.is_neighbor = true ∧
          ∃ p ∈ memSearch idx s q k, r.parent_memory_id = some p.id)
    ∧ ((memSearchAgentic idx s q k).map (fun r => r.id)).Nodup := by
  have hPnd : ((memSearch idx s q k).map (fun r => r.id)).Nodup :=
    (memSearch_ids_sublist idx s q k).nodup hidx
  have hinv0 :
      expandInv ((memSearch idx s q k).map (fun r => r.id))
        ([], (memSearch idx s q k).map (fun r => r.id)) :=
    ⟨by simp, hPnd, by simp⟩
  obtain ⟨hseen, hnd, hr⟩ :=
    foldl_expandPrimary_inv s ((memSearch idx s q k).map (fun r => r.id))
      (memSearch idx s q k) _ (fun p hp => List.mem_map_of_mem _ hp) hinv0
  have hagentic : memSearchAgentic idx s q k =
      memSearch idx s q k ++
        ((memSearch idx s q k).foldl (expandPrimary s)
          ([], (memSearch idx s q k).map (fun r => r.id))).1 := rfl
  refine ⟨?_, ?_, ?_⟩
  · intro i hi
    rw [hagentic, List.map_append]
    exact List.mem_append_left _ hi
  · intro r hrmem hnotin
    rw [hagentic] at hrmem
    rcases List.mem_append.mp hrmem with h1 | h2
    · exact absurd (List.mem_map_of_mem _ h1) hnotin
    · obtain ⟨hneigh, i, hi, hpar⟩ := hr r h2
      obtain ⟨p, hp, rfl⟩ := List.mem_map.mp hi
      exact ⟨hneigh, p, hp, hpar⟩
  · rw [hagentic, List.map_append, ← hseen]
    exact hnd

/-- Witness for C4 at the concrete index and four-note state. -/
theorem search_agentic_superset_witness :
    ((wIdx "q" 2).map Prod.fst).Nodup ∧
      ((memSearchAgentic wIdx wState "q" 2).map (fun r => r.id)).Nodup :=
  ⟨by decide, (search_agentic_superset wIdx wState "q" 2 (by decide)).2.2⟩

/-- Claim C7: every result of plain search carries
`score = 1 - distance`, where the distance is the one VectorIndex returned
for that note ID. -/
theorem search_score_one_minus_distance
    (idx : String → Nat → List (String × Rat)) (s : MemState) (q : String)
    (k : Nat) (r : SearchEntry) (hr : r ∈ memSearch idx s q k) :
    ∃ d, (r.id, d) ∈ idx q k ∧ r.score = some (1 - d) := by
  unfold memSearch at hr
  obtain ⟨p, hp, he⟩ := List.mem_filterMap.mp hr
  cases hf : findNote s p.1 with
  | none => rw [hf] at he; cases he
  | some n =>
    rw [hf] at he
    simp only [Option.map_some', Option.some.injEq] at he
    subst he
    exact ⟨p.2, by simpa using hp, rfl⟩

/-- Witness for C7 at the concrete index and four-note state. -/
theorem search_score_one_minus_distance_witness :
    ({ id := "a", content := "content-a", score := some (1 - 1/10),
       is_neighbor := false, parent_memory_id := none } : SearchEntry) ∈
        memSearch wIdx wState "q" 2 ∧
      ∃ d, (("a" : String), d) ∈ wIdx "q" 2 ∧
        ({ id := "a", content := "content-a", score := some (1 - 1/10),
           is_neighbor := false,
           parent_memory_id := none } : SearchEntry).score = some (1 - d) := by
  have hmem :
      ({ id := "a", content := "content-a", score := some (1 - 1/10),
         is_neighbor := false, parent_memory_id := none } : SearchEntry) ∈
        memSearch wIdx wState "q" 2 := List.Mem.head _
  exact ⟨hmem,
    search_score_one_minus_distance wIdx wState "q" 2 _ hmem⟩

theorem foldl_cacheStep_lookups (ops : List CacheOp) :
    ∀ c : NoteCache,
      (ops.foldl cacheStep c).hits + (ops.foldl cacheStep c).misses =
        c.hits + c.misses + countGets ops := by
  induction ops with
  | nil => intro c; simp [countGets]
  | cons op t ih =>
    intro c
    simp only [List.foldl_cons]
    rw [ih]
    cases op with
    | get id =>
      simp only [countGets, cacheStep, cacheGet]
      cases h : c.entries.find? (fun e => e.1 == id) <;> simp [h] <;> omega
    | put id n =>
      simp only [countGets, cacheStep, cachePut]
      split <;> simp
    | invalidate id =>
      simp [countGets, cacheStep, cacheInvalidate]

/-- Claim C8: at every point of a cache lifetime, `stats` returns exactly
the fields `size`, `max_size`, `hits`, `misses`, `evictions` and
`hit_rate`, with `hit_rate = hits / (hits + misses)` once a lookup
occurred and `0` when no lookup has occurred; the lookups performed are
exactly the `get` operations (`hits + misses = countGets`). -/
theorem cache_stats_contract (cap : Nat) (ops : List CacheOp) :
    cacheStats (cacheRun cap ops) =
      { size := (cacheRun cap ops).entries.length
        max_size := (cacheRun cap ops).max_size
        hits := (cacheRun cap ops).hits
        misses := (cacheRun cap ops).misses
        evictions := (cacheRun cap ops).evictions
        hit_rate :=
          if countGets ops = 0 then 0
          else ((cacheRun cap ops).hits : Rat) /
            (((cacheRun cap ops).hits : Rat) +
              ((cacheRun cap ops).misses : Rat)) }
    ∧ (cacheRun cap ops).hits + (cacheRun cap ops).misses = countGets ops := by
  have hcount :
      (cacheRun cap ops).hits + (cacheRun cap ops).misses = countGets ops := by
    simpa [cacheRun, cacheInit] using foldl_cacheStep_lookups ops (cacheInit cap)
  refine ⟨?_, hcount⟩
  rw [← hcount]
  rfl

theorem parseStrBody_cons (c : Char) (rest : List Char) :
    parseStrBody (c :: rest) =
      if c = '\\' then
        match rest with
        | [] => none
        | d :: rest2 => (parseStrBody rest2).map (fun p => (d :: p.1, p.2))
      else if c = '"' then some ([], rest)
      else (parseStrBody rest).map (fun p => (c :: p.1, p.2)) := by
  rw [parseStrBody.eq_def]

theorem parseStrBody_escape (s : List Char) :
    ∀ rest, parseStrBody (escapeChars s ++ '"' :: rest) = some (s, rest) := by
  induction s with
  | nil =>
    intro rest
    show parseStrBody ([] ++ '"' :: rest) = _
    rw [List.nil_append, parseStrBody_cons]
    simp
  | cons c t ih =>
    intro rest
    by_cases hc : c = '"' ∨ c = '\\'
    · have hesc : escapeChars (c :: t) = '\\' :: c :: escapeChars t := by
        simp [escapeChars, escapeChar, hc]
      rw [hesc, List.cons_append, List.cons_append, parseStrBody_cons]
      simp [ih rest]
    · have hesc : escapeChars (c :: t) = c :: escapeChars t := by
        simp [escapeChars, escapeChar, hc]
      push_neg at hc
      rw [hesc, List.cons_append, parseStrBody_cons]
      simp [hc.1, hc.2, ih rest]

theorem length_le_encodeItemsClosed (l : List String) :
    l.length ≤ (encodeItemsClosed l).length := by
  induction l with
  | nil => simp [encodeItemsClosed]
  | cons s t ih =>
    cases t with
    | nil => simp [encodeItemsClosed, quoteChars]
    | cons s2 t2 =>
      simp only [encodeItemsClosed, quoteChars, List.length_append,
        List.length_cons] at ih ⊢
      omega

theorem parseItemsAux_encode (l : List String) :
    ∀ (s0 : String) (fuel : Nat), l.length < fuel →
      parseItemsAux fuel (encodeItemsClosed (s0 :: l)) =
        some (s0 :: l, []) := by
  induction l with
  | nil =>
    intro s0 fuel hf
    cases fuel with
    | zero => omega
    | succ f =>
      show parseItemsAux (f + 1)
        (('"' :: (escapeChars s0.data ++ ['"'])) ++ [']']) = _
      rw [List.cons_append, List.append_assoc, parseItemsAux]
      simp [parseStrBody_escape]
  | cons s1 t ih =>
    intro s0 fuel hf
    cases fuel with
    | zero => omega
    | succ f =>
      show parseItemsAux (f + 1)
        (('"' :: (escapeChars s0.data ++ ['"'])) ++
          ',' :: encodeItemsClosed (s1 :: t)) = _
      rw [List.cons_append, List.append_assoc, parseItemsAux]
      have ht : t.length < f := by
        simpa using Nat.lt_of_succ_lt_succ hf
      simp [parseStrBody_escape, ih s1 f ht]

theorem parseStrList_encode (l : List String) :
    parseStrList (encodeStrList l) = some l := by
  cases l with
  | nil => rfl
  | cons s t =>
    have hne : encodeItemsClosed (s :: t) ≠ [']'] := by
      cases t <;> simp [encodeItemsClosed, quoteChars]
    have hfuel : t.length < (encodeItemsClosed (s :: t)).length := by
      have := length_le_encodeItemsClosed (s :: t)
      simp only [List.length_cons] at this
      omega
    show parseStrList (String.mk ('[' :: encodeItemsClosed (s :: t))) = _
    unfold parseStrList
    simp only [if_neg hne]
    rw [parseItemsAux_encode t s _ hfuel]

theorem charDigit_digitChar (d : Nat) (h : d < 10) :
    charDigit (digitChar d) = some d := by
  interval_cases d <;> rfl

theorem mapM_charDigit_digits (ds : List Nat) (h : ∀ d ∈ ds, d < 10) :
    (ds.map digitChar).mapM charDigit = some ds := by
  induction ds with
  | nil => rfl
  | cons d t ih =>
    simp only [List.map_cons, List.mapM_cons]
    rw [charDigit_digitChar d (h d (by simp)),
      ih (fun x hx => h x (by simp [hx]))]
    rfl

theorem decimalToNat_natToDecimal (n : Nat) :
    decimalToNat (natToDecimal n) = some n := by
  by_cases h0 : n = 0
  · subst h0; rfl
  · have hne : ((Nat.digits 10 n).map digitChar).reverse ≠ [] := by
      simp [Nat.digits_ne_nil_iff_ne_zero, h0]
    rw [natToDecimal, if_neg h0]
    unfold decimalToNat
    simp only [if_neg hne]
    rw [← List.map_reverse,
      mapM_charDigit_digits _
        (fun d hd =>
          Nat.digits_lt_base (by norm_num) (List.mem_reverse.mp hd))]
    simp [Nat.ofDigits_digits]

theorem cellsToEvents_flatten (h : List EvoEvent) :
    cellsToEvents ((h.map eventToCells).flatten) = some h := by
  induction h with
  | nil => rfl
  | cons e t ih =>
    simp [eventToCells, cellsToEvents, ih]

/-- Claim C9: serializing a MemoryNote into its VectorIndex metadata blob
and deserializing the blob yields the original note: every field
round-trips losslessly, the list-valued fields through unambiguous JSON
array strings and `retrieval_count` through its decimal string. -/
theorem metadata_blob_roundtrip (n : MemoryNote) :
    deserializeNote (serializeNote n) = some n := by
  unfold serializeNote deserializeNote decodeHistory encodeHistory
  rw [parseStrList_encode, parseStrList_encode, parseStrList_encode,
    decimalToNat_natToDecimal, parseStrList_encode]
  simp only [Option.some_bind]
  rw [cellsToEvents_flatten]
  rfl

/-- Counterexample to claim C1 as stated: with the `openai` backend, a
failing completion call propagates out of `get_completion`
(`llm_controller.py` lines 27-38 have no exception handler), so it is not
the case that `get_completion` returns empty-but-well-typed defaults for
every configured backend when the oracle call fails. -/
theorem openai_get_completion_propagates_failure :
    openaiGetCompletion none = none := rfl

/-- Claim C1 amended: when the oracle call fails, the `ollama` and `sglang`
backends' `get_completion` returns the empty-but-well-typed defaults
(empty list for array fields, empty string for string fields) serialized
as a JSON object matching the requested schema, and the spec-modelled
`create` with an unavailable oracle still succeeds; the `openai` backend
instead propagates the failure. -/
theorem oracle_failure_graceful (rf : ResponseFormat)
    (props : List (String × String))
    (h : rf.json_schema = some ⟨some props⟩) :
    ollamaGetCompletion none rf =
      jsonDumpsObj (props.map (fun p => (p.1, generateEmptyValueOllama p.2)))
    ∧ sglangGetCompletion none rf =
      jsonDumpsObj (props.map (fun p => (p.1, generateEmptyValueSGLang p.2)))
    ∧ generateEmptyValueOllama "array" = .jarr []
    ∧ generateEmptyValueOllama "string" = .jstr ""
    ∧ generateEmptyValueSGLang "array" = .jarr []
    ∧ generateEmptyValueSGLang "string" = .jstr ""
    ∧ (∀ newId now content opts s, content ≠ "" →
        ∃ s', memCreate none newId now content opts s = .ok (newId, s')) := by
  refine ⟨?_, ?_, rfl, rfl, rfl, rfl, ?_⟩
  · simp [ollamaGetCompletion, ollamaGenerateEmptyResponse,
      generateEmptyResponseWith, h]
  · simp [sglangGetCompletion, sglangGenerateEmptyResponse,
      generateEmptyResponseWith, h]
  · intro newId now content opts s hc
    refine ⟨?_, ?_⟩
    · exact ⟨s.notes ++
        [{ id := newId, content := content,
           keywords := opts.keywords.getD [], tags := opts.tags.getD [],
           context := opts.context.getD "", category := opts.category.getD "",
           timestamp := opts.timestamp.getD now,
           last_accessed := opts.timestamp.getD now, retrieval_count := 0,
           links := [], evolution_history := [] }]⟩
    · simp [memCreate, hc]

/-- Witness for C1 (amended) at the metadata-generation schema with
`keywords`, `context` and `tags` properties. -/
theorem oracle_failure_graceful_witness :
    (ResponseFormat.mk (some (JsonSchemaBody.mk (some
        [("keywords", "array"), ("context", "string"),
         ("tags", "array")])))).json_schema =
      some ⟨some [("keywords", "array"), ("context", "string"),
        ("tags", "array")]⟩ ∧
    ollamaGetCompletion none (ResponseFormat.mk (some (JsonSchemaBody.mk
        (some [("keywords", "array"), ("context", "string"),
          ("tags", "array")])))) =
      jsonDumpsObj ([("keywords", "array"), ("context", "string"),
        ("tags", "array")].map
          (fun p => (p.1, generateEmptyValueOllama p.2))) :=
  ⟨rfl, (oracle_failure_graceful _ _ rfl).1⟩

/-- Counterexample to claim C2 as stated: the caller supplies the
create-optional field `category`, yet the add tool does not forward it —
`AddNoteArgs` (`tools.py` lines 10-16) has no `category` field, so the
probe system observes no `category` keyword argument and answers
`"category-dropped"`.  Hence `call_tool` does not forward every optional
field of `create(content, keywords/tags/context/category/timestamp)`. -/
theorem add_tool_drops_category :
    callTool msProbe "add_memory_note"
        [("content", AVal.s "x"), ("category", AVal.s "work")] =
      [("status", JVal.jstr "success"),
       ("memory_id", JVal.jstr "category-dropped"),
       ("message", JVal.jstr "Memory note added successfully")] := rfl

/-- Claim C2 amended: each of the six protocol tools maps 1:1 onto the
corresponding core operation, forwarding exactly the caller-supplied
arguments for every field its schema exposes — for add these are
`content`, `keywords`, `tags`, `context` and `timestamp` (passed as
`time`), but not `category`, which the tool schema does not expose — and
returning that operation's result unchanged inside the protocol result
dictionary. -/
theorem tools_map_one_to_one (ms : MemSystem) :
    (∀ args a, parseAddArgs args = some a →
      callTool ms "add_memory_note" args =
        match ms.add_note a.content (addKwargs a) with
        | .ok mid =>
          [("status", .jstr "success"), ("memory_id", .jstr mid),
           ("message", .jstr "Memory note added successfully")]
        | .error e => errorResponse ("Tool execution error: " ++ e))
    ∧ (∀ args r, parseIdArgs args = some r →
      callTool ms "read_memory_note" args =
        match ms.read r.memory_id with
        | .ok none => errorResponse ("Memory not found: " ++ r.memory_id)
        | .ok (some n) => [("status", .jstr "success"), ("note", renderNote n)]
        | .error e => errorResponse ("Tool execution error: " ++ e))
    ∧ (∀ args u, parseUpdateArgs args = some u →
      callTool ms "update_memory_note" args =
        match ms.update u.memory_id (updateKwargs u) with
        | .ok true =>
          [("status", .jstr "success"),
           ("message", .jstr "Memory updated successfully")]
        | .ok false => errorResponse ("Memory not found: " ++ u.memory_id)
        | .error e => errorResponse ("Tool execution error: " ++ e))
    ∧ (∀ args d, parseIdArgs args = some d →
      callTool ms "delete_memory_note" args =
        match ms.delete d.memory_id with
        | .ok true =>
          [("status", .jstr "success"),
           ("message", .jstr "Memory deleted successfully")]
        | .ok false => errorResponse ("Memory not found: " ++ d.memory_id)
        | .error e => errorResponse ("Tool execution error: " ++ e))
    ∧ (∀ args sa, parseSearchArgs args = some sa →
      callTool ms "search_memories" args =
        match ms.search sa.query sa.k with
        | .ok results =>
          [("status", .jstr "success"),
           ("count", .jint (results.length : Int)),
           ("results", .jarr results)]
        | .error e => errorResponse ("Tool execution error: " ++ e))
    ∧ (∀ args sa, parseSearchArgs args = some sa →
      callTool ms "search_memories_agentic" args =
        match ms.search_agentic sa.query sa.k with
        | .ok results =>
          [("status", .jstr "success"),
           ("count", .jint (results.length : Int)),
           ("results", .jarr results)]
        | .error e => errorResponse ("Tool execution error: " ++ e))
    ∧ (∀ a : AddNoteArgs,
        lookupArg (addKwargs a) "keywords" = a.keywords.map AVal.l
        ∧ lookupArg (addKwargs a) "tags" = a.tags.map AVal.l
        ∧ lookupArg (addKwargs a) "context" = a.context.map AVal.s
        ∧ lookupArg (addKwargs a) "time" = a.timestamp.map AVal.s
        ∧ lookupArg (addKwargs a) "category" = none) := by
  refine ⟨?_, ?_, ?_, ?_, ?_, ?_, ?_⟩
  · intro args a h
    cases hres : ms.add_note a.content (addKwargs a) with
    | ok mid => simp [callTool, callToolInner, h, hres]
    | error e => simp [callTool, callToolInner, h, hres, errorResponse]
  · intro args r h
    cases hres : ms.read r.memory_id with
    | ok note =>
      cases note with
      | none => simp [callTool, callToolInner, h, hres]
      | some n => simp [callTool, callToolInner, h, hres]
    | error e => simp [callTool, callToolInner, h, hres, errorResponse]
  · intro args u h
    cases hres : ms.update u.memory_id (updateKwargs u) with
    | ok success =>
      cases success <;> simp [callTool, callToolInner, h, hres]
    | error e => simp [callTool, callToolInner, h, hres, errorResponse]
  · intro args d h
    cases hres : ms.delete d.memory_id with
    | ok success =>
      cases success <;> simp [callTool, callToolInner, h, hres]
    | error e => simp [callTool, callToolInner, h, hres, errorResponse]
  · intro args sa h
    cases hres : ms.search sa.query sa.k with
    | ok results => simp [callTool, callToolInner, h, hres]
    | error e => simp [callTool, callToolInner, h, hres, errorResponse]
  · intro args sa h
    cases hres : ms.search_agentic sa.query sa.k with
    | ok results => simp [callTool, callToolInner, h, hres]
    | error e => simp [callTool, callToolInner, h, hres, errorResponse]
  · intro a
    obtain ⟨c, k, t, cx, ts⟩ := a
    refine ⟨?_, ?_, ?_, ?_, ?_⟩ <;>
      cases k <;> cases t <;> cases cx <;> cases ts <;>
        simp [addKwargs, lookupArg]

/-- Witness for C2 (amended): the add tool at a concrete argument
dictionary carrying only `content`. -/
theorem tools_map_one_to_one_witness :
    parseAddArgs [("content", AVal.s "x")] =
      some ⟨"x", none, none, none, none⟩ ∧
    callTool msProbe "add_memory_note" [("content", AVal.s "x")] =
      match msProbe.add_note "x" (addKwargs ⟨"x", none, none, none, none⟩) with
      | .ok mid =>
        [("status", .jstr "success"), ("memory_id", .jstr mid),
         ("message", .jstr "Memory note added successfully")]
      | .error e => errorResponse ("Tool execution error: " ++ e) :=
  ⟨rfl, (tools_map_one_to_one msProbe).1 [("content", AVal.s "x")]
    ⟨"x", none, none, none, none⟩ rfl⟩

theorem callToolInner_ok_status (ms : MemSystem) (name : String)
    (args : Args) (r : List (String × JVal))
    (hres : callToolInner ms name args = .ok r) :
    statusOf r = some (.jstr "success") ∨ statusOf r = some (.jstr "error") := by
  unfold callToolInner at hres
  split_ifs at hres
  · split at hres
    · cases hres
    · split at hres
      · cases hres
      · cases hres; left; rfl
  · split at hres
    · cases hres
    · split at hres
      · cases hres
      · cases hres; right; rfl
      · cases hres; left; rfl
  · split at hres
    · cases hres
    · split at hres
      · cases hres
      · injection hres with h2
        subst h2
        rename_i success heq
        cases success
        · right; rfl
        · left; rfl
  · split at hres
    · cases hres
    · split at hres
      · cases hres
      · injection hres with h2
        subst h2
        rename_i success heq
        cases success
        · right; rfl
        · left; rfl
  · split at hres
    · cases hres
    · split at hres
      · cases hres
      · cases hres; left; rfl
  · split at hres
    · cases hres
    · split at hres
      · cases hres
      · cases hres; left; rfl
  · cases hres; right; rfl

/-- Claim C10: the protocol dispatcher is total — for every tool name and
argument dictionary, including unknown names, validation failures and
memory-system operations that raise, `call_tool` returns a result
dictionary whose `status` is `"success"` or `"error"`; no exception
reaches the transport layer. -/
theorem call_tool_total (ms : MemSystem) (name : String) (args : Args) :
    statusOf (callTool ms name args) = some (.jstr "success") ∨
      statusOf (callTool ms name args) = some (.jstr "error") := by
  unfold callTool
  cases hres : callToolInner ms name args with
  | error e => right; rfl
  | ok r => exact callToolInner_ok_status ms name args r hres

end AMem
